import Mathlib

/-!
Verification development for the oil-spill simulation core
(`src/Simulation/cells.py`, `src/Simulation/mesh.py`, `src/Simulation/solver.py`).

Embedding conventions:
* Python floats are modelled as exact rationals (`ℚ`).  The simulated meshes
  are planar: every point produced by the mesh reader has `z = 0`, the synthetic
  velocity field has `z = 0`, and every edge normal has `z = 0`, so all vectors
  are modelled as 2-D rational pairs; three-component dot products coincide
  with the two-component ones because the third components are identically 0.
* The rescaling step `normal / np.linalg.norm(normal) * np.linalg.norm(v)` in
  `Triangle.__init__` is the identity for planar points, because
  `‖(-v_y, v_x)‖ = ‖(v_x, v_y)‖` exactly; the embedded normal is therefore the
  (possibly flipped) vector `(-v_y, v_x)` directly, with no square roots.
* The initial triangle value `exp(-((mx-0.35)^2+(my-0.45)^2)/0.01)` is a
  transcendental number; the embedded constructor takes it as an explicit
  parameter `oil` since no verified claim depends on its particular value.
* Fallible Python code (raised exceptions) is embedded as `Except`/`Option`
  results; file contents are passed as optional parsed values, where `none`
  models an absent file.
-/

namespace OilSpill

/-- Planar vector: a pair of rational coordinates. -/
abbrev Vec := ℚ × ℚ

def dot (a b : Vec) : ℚ := a.1 * b.1 + a.2 * b.2

def vadd (a b : Vec) : Vec := (a.1 + b.1, a.2 + b.2)

def vsub (a b : Vec) : Vec := (a.1 - b.1, a.2 - b.2)

def vneg (a : Vec) : Vec := (-a.1, -a.2)

def vscale (c : ℚ) (a : Vec) : Vec := (c * a.1, c * a.2)

/-- Data of a `Triangle` cell (`cells.py`, class `Triangle`). -/
structure TriangleData where
  point_ids : List ℕ
  idx : ℕ
  points : List Vec
  midpoint : Vec
  velocity : Vec
  oil_value : ℚ
  area : ℚ
  normals : List Vec
  neighbors : List ℤ
deriving DecidableEq, Repr

/-- Data of a `Line` cell (`cells.py`, class `Line`). -/
structure LineData where
  point_ids : List ℕ
  idx : ℕ
  points : List Vec
  midpoint : Vec
  velocity : Vec
  oil_value : ℚ
  neighbors : List ℤ
deriving DecidableEq, Repr

/-- A mesh cell: the closed `Triangle`/`Line` variant pair. -/
inductive Cell where
  | tri (t : TriangleData)
  | line (l : LineData)
deriving DecidableEq, Repr

def Cell.oil_value : Cell → ℚ
  | .tri t => t.oil_value
  | .line l => l.oil_value

def Cell.velocity : Cell → Vec
  | .tri t => t.velocity
  | .line l => l.velocity

def Cell.neighbors : Cell → List ℤ
  | .tri t => t.neighbors
  | .line l => l.neighbors

def Cell.point_ids : Cell → List ℕ
  | .tri t => t.point_ids
  | .line l => l.point_ids

def Cell.midpoint : Cell → Vec
  | .tri t => t.midpoint
  | .line l => l.midpoint

/-- Python string tag `cell.type` ("triangle" / "line"). -/
def Cell.ctype : Cell → String
  | .tri _ => "triangle"
  | .line _ => "line"

/-- Accessing `cell.area`: only triangles carry the attribute
(`AttributeError` on a `Line` is modelled as `none`). -/
def Cell.area? : Cell → Option ℚ
  | .tri t => some t.area
  | .line _ => none

/-- Accessing `cell.normals`: only triangles carry the attribute. -/
def Cell.normals? : Cell → Option (List Vec)
  | .tri t => some t.normals
  | .line _ => none

/-- Assignment `cell.oil_value = v`. -/
def Cell.setOil : Cell → ℚ → Cell
  | .tri t, v => .tri { t with oil_value := v }
  | .line l, v => .line { l with oil_value := v }

/-- Mean of the vertex coordinates (`np.mean(points, axis=0)` in `Cell.__init__`). -/
def mkMidpoint (pts : List Vec) : Vec :=
  ((pts.map Prod.fst).sum / pts.length, (pts.map Prod.snd).sum / pts.length)

/-- The synthetic velocity field of `Cell.__init__`:
`(midpoint.y - 0.2 * midpoint.x, -midpoint.x)` (third component 0 dropped). -/
def mkVelocity (m : Vec) : Vec := (m.2 - (1/5) * m.1, -m.1)

/-- One outward edge normal of `Triangle.__init__` for the edge from `a` to `b`:
`(-v_y, v_x)` for `v = b - a`, flipped when it points into the triangle.  The
final `normal / ‖normal‖ * ‖v‖` rescale in the source is the exact identity
because `‖(-v_y, v_x)‖ = ‖(v_x, v_y)‖`. -/
def mkNormal (a b mid : Vec) : Vec :=
  let v := vsub b a
  let n : Vec := (-v.2, v.1)
  if dot n (vsub a mid) < 0 then vneg n else n

/-- `Triangle.__init__`: arity checks, determinant area, per-edge outward
normals, `-1`-initialised neighbor table.  The initial `oil_value`
(a transcendental Gaussian of the midpoint) is taken as the parameter `oil`. -/
def mkTriangle (pids : List ℕ) (idx : ℕ) (pts : List Vec) (oil : ℚ) :
    Except String TriangleData :=
  if pids.length ≠ 3 then .error "Triangle cells require three point indices."
  else
    match pts with
    | [p0, p1, p2] =>
      let mid := mkMidpoint [p0, p1, p2]
      .ok { point_ids := pids
            idx := idx
            points := pts
            midpoint := mid
            velocity := mkVelocity mid
            oil_value := oil
            area := (1/2) * |(p0.1 - p2.1) * (p1.2 - p0.2) - (p0.1 - p1.1) * (p2.2 - p0.2)|
            normals := [mkNormal p0 p1 mid, mkNormal p1 p2 mid, mkNormal p2 p0 mid]
            neighbors := pids.map fun _ => -1 }
    | _ => .error "The points array must be shape (3, 2)."

/-- `Line.__init__`: value fixed at 0, `-1`-initialised neighbor table. -/
def mkLine (pids : List ℕ) (idx : ℕ) (pts : List Vec) : LineData :=
  let mid := mkMidpoint pts
  { point_ids := pids
    idx := idx
    points := pts
    midpoint := mid
    velocity := mkVelocity mid
    oil_value := 0
    neighbors := pids.map fun _ => -1 }

/-- `len(set(pts) & set(other))` in `Triangle.compute_neighbors`. -/
def sharedCount (pts other : List ℕ) : ℕ := (pts.toFinset ∩ other.toFinset).card

/-- `pts[1:] + [pts[0]]` (cyclic rotation of the vertex list). -/
def rot1 (pts : List ℕ) : List ℕ := pts.drop 1 ++ pts.take 1

/-- Index of the first edge `(p_i, p_{i+1 mod k})` whose two endpoints both
occur in `other` (the inner `for ... break` of `Triangle.compute_neighbors`). -/
def firstMatchEdge (pts other : List ℕ) : Option ℕ :=
  (pts.zip (rot1 pts)).findIdx? fun pq => other.contains pq.1 && other.contains pq.2

/-- Body of the outer loop of `Triangle.compute_neighbors` for candidate cell
`other` at creation index `idx`. -/
def cnStep (pts : List ℕ) (acc : List ℤ) (idx : ℕ) (other : List ℕ) : List ℤ :=
  if sharedCount pts other = 2 then
    match firstMatchEdge pts other with
    | some i => acc.set i (Int.ofNat idx)
    | none => acc
  else acc

def cnAux (pts : List ℕ) (acc : List ℤ) (idx : ℕ) : List (List ℕ) → List ℤ
  | [] => acc
  | other :: rest => cnAux pts (cnStep pts acc idx other) (idx + 1) rest

/-- `Triangle.compute_neighbors`: scan all cells in creation order, writing the
candidate's index into the slot of the first matching edge. -/
def compute_neighbors (pts : List ℕ) (acc : List ℤ) (cells : List (List ℕ)) : List ℤ :=
  cnAux pts acc 0 cells

/-- `Mesh.find_neighbors`: run `compute_neighbors` for every triangle against
the vertex-id lists of the whole cell list; `Line.compute_neighbors` is a no-op. -/
def find_neighbors (cells : List Cell) : List Cell :=
  cells.map fun c =>
    match c with
    | .tri t => .tri { t with
        neighbors := compute_neighbors t.point_ids t.neighbors (cells.map Cell.point_ids) }
    | .line l => .line l

/-- `Mesh.fishing_cells`: triangles whose midpoint lies inside the closed
rectangle (chained inclusive comparisons in the source). -/
def fishing_cells (cells : List Cell) (x_min x_max y_min y_max : ℚ) : List Cell :=
  cells.filter fun c =>
    c.ctype == "triangle" && decide (x_min ≤ c.midpoint.1) && decide (c.midpoint.1 ≤ x_max)
      && decide (y_min ≤ c.midpoint.2) && decide (c.midpoint.2 ≤ y_max)

/-- The solver state: the live cell list plus the run parameters the covered
methods read (`Solver.__init__` fields). -/
structure SolverState where
  cells : List Cell
  tStart : ℚ
  tEnd : ℚ
  nt : ℤ
  dt : ℚ
  meshName : String
  fishing_borders : (ℚ × ℚ) × (ℚ × ℚ)
deriving DecidableEq, Repr

/-- `Solver.flux_function`: upwind flux. -/
def flux_function (a b : ℚ) (n v : Vec) : ℚ :=
  let angle := dot n v
  if angle > 0 then a * angle else b * angle

/-- The inner edge loop of `Solver.calculate` for one cell: running
accumulator `acc` (`up` in the source), edge counter `i`, remaining neighbor
entries.  Failed attribute accesses / out-of-range indexing give `none`. -/
def edgeLoop (dt : ℚ) (cells : List Cell) (u : List ℚ) (ui : ℚ) (cell : Cell)
    (acc : ℚ) (i : ℕ) : List ℤ → Option ℚ
  | [] => some acc
  | ngh :: rest =>
    if ngh < 0 then edgeLoop dt cells u ui cell acc (i + 1) rest
    else do
      let ns ← cell.normals?
      let normal ← ns[i]?
      let area ← cell.area?
      let nc ← cells[ngh.toNat]?
      let ub ← u[ngh.toNat]?
      edgeLoop dt cells u ui cell
        (acc - (dt / area) * flux_function ui ub normal (vscale (1/2) (vadd cell.velocity nc.velocity)))
        (i + 1) rest

/-- `Option`-valued `mapM`, written by structural recursion. -/
def optMapM (f : α → Option β) : List α → Option (List β)
  | [] => some []
  | x :: xs => do
    let y ← f x
    let ys ← optMapM f xs
    pure (y :: ys)

/-- The `u_new` array of `Solver.calculate`: for every cell index, the snapshot
value plus the accumulated edge contributions. -/
def newValues (dt : ℚ) (cells : List Cell) (u : List ℚ) : Option (List ℚ) :=
  optMapM
    (fun i => do
      let cell ← cells[i]?
      let ui ← u[i]?
      let up ← edgeLoop dt cells u ui cell 0 0 cell.neighbors
      pure (ui + up))
    (List.range cells.length)

/-- `Solver.calculate`: snapshot all values, compute every `u_new` entry from
the snapshot, then commit all new values. -/
def calculate (S : SolverState) : Option SolverState :=
  (newValues S.dt S.cells (S.cells.map Cell.oil_value)).map fun uNew =>
    { S with cells := List.zipWith Cell.setOil S.cells uNew }

/-- A value of the `simulation_data.txt` file: a numeric entry (parseable by
`float`), a plain string entry, or the printed borders list. -/
inductive MetaVal where
  | q (x : ℚ)
  | s (v : String)
  | borders (b : (ℚ × ℚ) × (ℚ × ℚ))
deriving DecidableEq, Repr

/-- `float(value)` on a metadata entry: succeeds only on numeric entries. -/
def pyFloat : MetaVal → Option ℚ
  | .q x => some x
  | _ => none

/-- `int(value)` on a metadata entry: succeeds only on integral numerics. -/
def pyIntOf : MetaVal → Option ℤ
  | .q x => if x.den = 1 then some x.num else none
  | _ => none

/-- Python `int(x)` on a float: truncation toward zero. -/
def pyTrunc (x : ℚ) : ℤ := Int.tdiv x.num (x.den : ℤ)

/-- The `key: value` scan of `Solver.load_state`: the last `current_time`
entry replaces `tStart`; `remaining_steps` entries are parsed and discarded;
a non-numeric value under either key raises (`ValueError`). -/
def metaLoop (tS : ℚ) : List (String × MetaVal) → Except String ℚ
  | [] => .ok tS
  | (k, v) :: rest =>
    if k = "current_time" then
      match pyFloat v with
      | some x => metaLoop x rest
      | none => .error "ValueError"
    else if k = "remaining_steps" then
      match pyIntOf v with
      | some _ => metaLoop tS rest
      | none => .error "ValueError"
    else metaLoop tS rest

/-- `Solver.load_state`.  `none` for a file argument models an absent file
(`FileNotFoundError`).  The oil values are zipped onto the cells — `zip`
truncates silently at the shorter of the two lists.  Afterwards
`nt = int((tEnd - tStart) / dt)` with the (possibly updated) `tStart`.
The Python method mutates the field before parsing the metadata; the model
returns only the error in that case, and no claim reads the partial state. -/
def load_state (oilFile : Option (List ℚ)) (metaFile : Option (List (String × MetaVal)))
    (S : SolverState) : Except String SolverState :=
  match oilFile, metaFile with
  | some oil, some meta =>
    let cells' := List.zipWith Cell.setOil S.cells oil ++ S.cells.drop oil.length
    match metaLoop S.tStart meta with
    | .ok tS => .ok { S with
        cells := cells'
        tStart := tS
        nt := pyTrunc ((S.tEnd - tS) / S.dt) }
    | .error e => .error e
  | _, _ => .error "FileNotFoundError"

/-- `Solver.save_state`: the oil-values file (one value per cell, in creation
order) and the metadata key/value lines.  `max()`/`min()` on an empty cell
list raise, modelled as `none`. -/
def save_state (S : SolverState) : Option (List ℚ × List (String × MetaVal)) :=
  match (S.cells.map Cell.oil_value).max?, (S.cells.map Cell.oil_value).min? with
  | some mx, some mn =>
    some (S.cells.map Cell.oil_value,
      [("tStart", .q S.tStart), ("tEnd", .q S.tEnd), ("meshName", .s S.meshName),
       ("max_oil", .q mx), ("min_oil", .q mn),
       ("total_oil", .q (S.cells.map Cell.oil_value).sum),
       ("fishing_grounds_oil", .q ((fishing_cells S.cells S.fishing_borders.1.1
          S.fishing_borders.1.2 S.fishing_borders.2.1 S.fishing_borders.2.2).map
            Cell.oil_value).sum),
       ("fishing_borders", .borders S.fishing_borders)])
  | _, _ => none

/-! ### Specification-side definitions (written from the spec's words, to be
compared with the source embeddings above) -/

/-- Velocity of the neighbor cell `velocity_ngh` in the step formula of the
spec (§4.4); the default is never consulted when the step succeeds. -/
def specVelocity (cells : List Cell) (ngh : ℤ) : Vec :=
  ((cells[ngh.toNat]?).map Cell.velocity).getD (0, 0)

/-- One edge contribution of the spec's step formula:
`(dt / area_i) * flux(value_i, value_ngh, normal_i_e, 0.5 * (velocity_i + velocity_ngh))`. -/
def specEdgeTerm (dt : ℚ) (cells : List Cell) (u : List ℚ) (ui : ℚ) (t : TriangleData)
    (e : ℕ) (ngh : ℤ) : ℚ :=
  (dt / t.area) * flux_function ui ((u[ngh.toNat]?).getD 0) ((t.normals[e]?).getD (0, 0))
    (vscale (1/2) (vadd t.velocity (specVelocity cells ngh)))

/-- The spec's per-triangle update: the snapshot value minus the sum of the
edge terms over the edges with a non-negative neighbor entry. -/
def specNewValue (dt : ℚ) (cells : List Cell) (u : List ℚ) (i : ℕ) (t : TriangleData) : ℚ :=
  (u[i]?).getD 0 -
    (((t.neighbors.enum.filter fun p => !decide (p.2 < 0)).map
      fun p => specEdgeTerm dt cells u ((u[i]?).getD 0) t p.1 p.2).sum)

/-- Creation index of the LAST cell at index `≥ idx` whose vertex set shares
exactly two vertices with `pts` and whose first matching edge is `e`
(this is what `compute_neighbors` actually records; claim C3 says "first"). -/
def lastMatchAux (pts : List ℕ) (e : ℕ) (idx : ℕ) : List (List ℕ) → Option ℕ
  | [] => none
  | other :: rest =>
    match lastMatchAux pts e (idx + 1) rest with
    | some j => some j
    | none =>
      if sharedCount pts other = 2 ∧ firstMatchEdge pts other = some e then some idx else none

/-! ### Helper lemmas about the connectivity builder -/

theorem cnStep_length (pts : List ℕ) (acc : List ℤ) (idx : ℕ) (other : List ℕ) :
    (cnStep pts acc idx other).length = acc.length := by
  by_cases h : sharedCount pts other = 2
  · simp only [cnStep, if_pos h]
    cases hf : firstMatchEdge pts other <;> simp [List.length_set]
  · simp [cnStep, if_neg h]

theorem cnAux_get? (pts : List ℕ) :
    ∀ (others : List (List ℕ)) (acc : List ℤ) (idx e : ℕ), e < acc.length →
      (cnAux pts acc idx others)[e]? =
        (match lastMatchAux pts e idx others with
         | some j => some (Int.ofNat j)
         | none => acc[e]?)
  | [], acc, idx, e, _ => by simp [cnAux, lastMatchAux]
  | other :: rest, acc, idx, e, he => by
    have he' : e < (cnStep pts acc idx other).length := by rw [cnStep_length]; exact he
    have ih := cnAux_get? pts rest (cnStep pts acc idx other) (idx + 1) e he'
    simp only [cnAux, lastMatchAux]
    rw [ih]
    cases hlast : lastMatchAux pts e (idx + 1) rest with
    | some j => simp
    | none =>
      simp only []
      by_cases hs : sharedCount pts other = 2
      · cases hf : firstMatchEdge pts other with
        | none => simp [cnStep, if_pos hs, hf, hs]
        | some i =>
          by_cases hie : i = e
          · subst hie
            simp [cnStep, if_pos hs, hf, hs, List.getElem?_set_eq he]
          · simp [cnStep, if_pos hs, hf, hs, List.get?_set, hie]
      · simp [cnStep, if_neg hs, hs]

/-! ### Claim C2: the upwind flux rule -/

/-- C2: for all inputs, `flux_function a b n v` is `a * dot n v` when
`dot n v > 0` and `b * dot n v` otherwise; in particular
`flux(0.8, 0.4, [1,0], [0.5,0]) = 0.4` and `flux(0.8, 0.4, [-1,0], [0.5,0]) = -0.2`. -/
theorem flux_function_upwind :
    (∀ (a b : ℚ) (n v : Vec),
      flux_function a b n v = if dot n v > 0 then a * dot n v else b * dot n v) ∧
    flux_function (4/5) (2/5) ((1 : ℚ), (0 : ℚ)) (1/2, 0) = 2/5 ∧
    flux_function (4/5) (2/5) ((-1 : ℚ), (0 : ℚ)) (1/2, 0) = -(1/5) := by
  refine ⟨fun a b n v => rfl, ?_, ?_⟩ <;> norm_num [flux_function, dot]

/-! ### Claim C3: which matching cell the connectivity builder records -/

/-- C3 (counterexample to the claim as stated): for the triangle `[0,1,2]`,
both cell 1 (`[0,1,3]`) and cell 2 (`[0,1,4]`) share exactly two vertices
with it and match edge 0, yet `compute_neighbors` records 2 — the LAST
matching cell in creation order — not the first (1) as claimed. -/
theorem compute_neighbors_first_wins_false :
    compute_neighbors [0, 1, 2] [-1, -1, -1] [[0, 1, 2], [0, 1, 3], [0, 1, 4]] = [2, -1, -1] ∧
    sharedCount [0, 1, 2] [0, 1, 3] = 2 ∧ firstMatchEdge [0, 1, 2] [0, 1, 3] = some 0 ∧
    sharedCount [0, 1, 2] [0, 1, 4] = 2 ∧ firstMatchEdge [0, 1, 2] [0, 1, 4] = some 0 := by
  decide

/-- C3 (amended): for every edge slot `e`, `compute_neighbors` records the id
of the LAST cell in cell-creation order whose vertex-index set shares exactly
2 elements with the triangle's vertex set and whose first matching edge is
`e`; if several cells match the same edge, the last-by-id one wins; if none
matches, the slot keeps its initial value (the sentinel `-1`). -/
theorem compute_neighbors_last_wins (pts : List ℕ) (acc : List ℤ) (cells : List (List ℕ))
    (e : ℕ) (he : e < acc.length) :
    (compute_neighbors pts acc cells)[e]? =
      (match lastMatchAux pts e 0 cells with
       | some j => some (Int.ofNat j)
       | none => acc[e]?) :=
  cnAux_get? pts cells acc 0 e he

/-- Witness for C3 (amended) at a concrete input: the last matching cell (1)
is recorded for edge 0. -/
theorem compute_neighbors_last_wins_witness :
    (0 < ([-1, -1, -1] : List ℤ).length) ∧
    (compute_neighbors [0, 1, 2] [-1, -1, -1] [[0, 1, 3], [0, 1, 4]])[0]? =
      (match lastMatchAux [0, 1, 2] 0 0 [[0, 1, 3], [0, 1, 4]] with
       | some j => some (Int.ofNat j)
       | none => ([-1, -1, -1] : List ℤ)[0]?) :=
  ⟨by decide, compute_neighbors_last_wins [0, 1, 2] [-1, -1, -1] [[0, 1, 3], [0, 1, 4]] 0 (by decide)⟩

/-! ### Claim C4: triangle construction errors -/

/-- C4 (counterexample to the claim as stated): a degenerate triangle on the
three collinear points `(0,0), (1,0), (2,0)` constructs WITHOUT an error, and
its stored area is 0 — the constructor never checks for degeneracy. -/
theorem degenerate_triangle_constructs :
    (mkTriangle [0, 1, 2] 7 [(0, 0), (1, 0), (2, 0)] 1).toOption.map TriangleData.area
      = some 0 := by
  norm_num [mkTriangle, mkMidpoint, mkVelocity, mkNormal, Except.toOption]

/-- C4 (amended): constructing a `Triangle` raises a construction error
exactly when the vertex-index count or the point-row count differs from 3;
a degenerate (zero-area) geometry is NOT rejected (see the counterexample). -/
theorem mkTriangle_error_iff (pids : List ℕ) (idx : ℕ) (pts : List Vec) (oil : ℚ) :
    (∃ msg, mkTriangle pids idx pts oil = .error msg) ↔
      (pids.length ≠ 3 ∨ pts.length ≠ 3) := by
  by_cases hp : pids.length = 3
  · rcases pts with _ | ⟨a, _ | ⟨b, _ | ⟨c, _ | ⟨d, rest⟩⟩⟩⟩ <;>
      simp [mkTriangle, hp]
  · simp [mkTriangle, hp]

/-! ### Claim C10: the region-of-interest query -/

/-- C10: membership in `fishing_cells` is exactly: being a triangle of the
list whose midpoint satisfies the INCLUSIVE boundary comparisons; hence a
triangle with its midpoint exactly on the border is included, and a `Line`
(whose `ctype` is `"line"`) is never included. -/
theorem fishing_cells_mem_iff (cells : List Cell) (x_min x_max y_min y_max : ℚ) (c : Cell) :
    c ∈ fishing_cells cells x_min x_max y_min y_max ↔
      c ∈ cells ∧ c.ctype = "triangle" ∧ x_min ≤ c.midpoint.1 ∧ c.midpoint.1 ≤ x_max ∧
        y_min ≤ c.midpoint.2 ∧ c.midpoint.2 ≤ y_max := by
  simp [fishing_cells, List.mem_filter, and_assoc, Bool.and_eq_true, decide_eq_true_eq,
    beq_iff_eq]

/-! ### Helper lemmas about the flux stepper -/

theorem edgeLoop_tri_eq (dt : ℚ) (cells : List Cell) (u : List ℚ) (ui : ℚ) (t : TriangleData) :
    ∀ (l : List ℤ) (i : ℕ) (acc r : ℚ),
      edgeLoop dt cells u ui (.tri t) acc i l = some r →
      r = acc - (((List.enumFrom i l).filter fun p => !decide (p.2 < 0)).map
        fun p => specEdgeTerm dt cells u ui t p.1 p.2).sum
  | [], i, acc, r => by
    intro h
    simp only [edgeLoop, Option.some.injEq] at h
    simp [← h]
  | ngh :: rest, i, acc, r => by
    intro h
    rw [List.enumFrom_cons]
    by_cases hn : ngh < 0
    · simp only [edgeLoop, if_pos hn] at h
      have ih := edgeLoop_tri_eq dt cells u ui t rest (i + 1) acc r h
      simp [List.filter_cons, hn, ih]
    · simp only [edgeLoop, if_neg hn, Cell.normals?, Cell.area?,
        Option.bind_eq_bind, Option.some_bind] at h
      cases hnm : t.normals[i]? with
      | none => rw [hnm] at h; simp at h
      | some nrm =>
        rw [hnm] at h
        simp only [Option.some_bind] at h
        cases hc : cells[ngh.toNat]? with
        | none => rw [hc] at h; simp at h
        | some nc =>
          rw [hc] at h
          simp only [Option.some_bind] at h
          cases hub : u[ngh.toNat]? with
          | none => rw [hub] at h; simp at h
          | some ub =>
            rw [hub] at h
            simp only [Option.some_bind] at h
            have ih := edgeLoop_tri_eq dt cells u ui t rest (i + 1) _ r h
            have hterm : specEdgeTerm dt cells u ui t i ngh =
                (dt / t.area) * flux_function ui ub nrm
                  (vscale (1/2) (vadd (Cell.tri t).velocity nc.velocity)) := by
              simp [specEdgeTerm, specVelocity, hnm, hc, hub, Cell.velocity]
            rw [ih]
            have hpred : (!decide ((i, ngh).2 < 0)) = true := by simp [hn]
            rw [List.filter_cons, if_pos hpred, List.map_cons, List.sum_cons, hterm]
            ring

theorem optMapM_get? (f : α → Option β) :
    ∀ (l : List α) (ys : List β), optMapM f l = some ys →
      ∀ (k : ℕ) (x : α), l[k]? = some x → ∃ y, f x = some y ∧ ys[k]? = some y
  | [], ys, h, k, x, hx => by simp at hx
  | a :: l, ys, h, k, x, hx => by
    simp only [optMapM, Option.bind_eq_bind] at h
    cases hfa : f a with
    | none => rw [hfa] at h; simp at h
    | some y0 =>
      rw [hfa] at h
      simp only [Option.some_bind] at h
      cases hrest : optMapM f l with
      | none => rw [hrest] at h; simp at h
      | some ys0 =>
        rw [hrest] at h
        simp only [Option.some_bind, Option.pure_def, Option.some.injEq] at h
        subst h
        cases k with
        | zero =>
          simp only [List.getElem?_cons_zero, Option.some.injEq] at hx
          subst hx
          exact ⟨y0, hfa, List.getElem?_cons_zero⟩
        | succ k' =>
          simp only [List.getElem?_cons_succ] at hx ⊢
          exact optMapM_get? f l ys0 hrest k' x hx

/-! ### Claim C1: the Jacobi-style time step -/

/-- C1: whenever one call of `calculate` succeeds, the committed value of the
triangle at index `i` equals the pre-step snapshot value minus the sum, over
the edges with a non-negative neighbor entry, of
`(dt / area_i) * flux(value_i, value_ngh, normals[i][e], 0.5 * (velocity_i + velocity_ngh))`,
where every value is read from the snapshot taken before any mutation and all
new values are committed only after every entry is computed. -/
theorem calculate_jacobi_step (S S' : SolverState) (i : ℕ) (t : TriangleData)
    (hc : calculate S = some S') (ht : S.cells[i]? = some (Cell.tri t)) :
    (S'.cells.map Cell.oil_value)[i]? =
      some (specNewValue S.dt S.cells (S.cells.map Cell.oil_value) i t) := by
  have hlt : i < S.cells.length := (List.getElem?_eq_some.mp ht).1
  unfold calculate at hc
  cases hnv : newValues S.dt S.cells (S.cells.map Cell.oil_value) with
  | none => rw [hnv] at hc; exact absurd hc (by simp)
  | some ys =>
    rw [hnv] at hc
    simp only [Option.map_some', Option.some.injEq] at hc
    have hui : (S.cells.map Cell.oil_value)[i]? = some t.oil_value := by
      rw [List.getElem?_map, ht]; rfl
    unfold newValues at hnv
    obtain ⟨y, hy, hysi⟩ := optMapM_get? _ _ _ hnv i i (List.getElem?_range hlt)
    rw [ht, hui] at hy
    simp only [Option.bind_eq_bind, Option.some_bind] at hy
    cases hup : edgeLoop S.dt S.cells (S.cells.map Cell.oil_value) t.oil_value
        (Cell.tri t) 0 0 (Cell.tri t).neighbors with
    | none => rw [hup] at hy; simp at hy
    | some up =>
      rw [hup] at hy
      simp only [Option.some_bind, Option.pure_def, Option.some.injEq] at hy
      have hval := edgeLoop_tri_eq S.dt S.cells (S.cells.map Cell.oil_value) t.oil_value t
        (Cell.tri t).neighbors 0 0 up hup
      rw [← hc]
      show ((List.zipWith Cell.setOil S.cells ys).map Cell.oil_value)[i]? = _
      rw [List.getElem?_map]
      have hz : (List.zipWith Cell.setOil S.cells ys)[i]? = some ((Cell.tri t).setOil y) := by
        rw [List.getElem?_zipWith, ht, hysi]
      rw [hz, Option.map_some']
      have hoil : Cell.oil_value ((Cell.tri t).setOil y) = y := rfl
      rw [hoil, ← hy, hval]
      refine congrArg some ?_
      simp only [specNewValue, hui, Option.getD_some, Cell.neighbors, List.enum_eq_enumFrom]
      ring

/-! ### Concrete states used by witnesses and counterexamples -/

/-- A concrete triangle whose first edge points back at cell 0. -/
def wT0 : TriangleData :=
  { point_ids := [0, 1, 2], idx := 0, points := [(0, 0), (1, 0), (0, 1)],
    midpoint := (1/3, 1/3), velocity := (1, 0), oil_value := 1, area := 1,
    normals := [(1, 0), (0, 1), (1, 1)], neighbors := [0, -1, -1] }

def wState1 : SolverState :=
  { cells := [.tri wT0], tStart := 0, tEnd := 1, nt := 1, dt := 1,
    meshName := "w", fishing_borders := ((0, 1), (0, 1)) }

def wState1After : SolverState :=
  { wState1 with cells := [.tri { wT0 with oil_value := 0 }] }

/-- A concrete line cell. -/
def wLineData : LineData :=
  { point_ids := [0, 1], idx := 0, points := [(0, 0), (1, 0)], midpoint := (1/2, 0),
    velocity := (-(1/10), -(1/2)), oil_value := 0, neighbors := [-1, -1] }

def wS2 : SolverState :=
  { cells := [.line wLineData, .line wLineData], tStart := 0, tEnd := 1, nt := 1, dt := 1,
    meshName := "m", fishing_borders := ((0, 1), (0, 1)) }

def wS2' : SolverState :=
  { wS2 with
    cells := List.zipWith Cell.setOil wS2.cells [5] ++ wS2.cells.drop 1
    tStart := wS2.tStart
    nt := pyTrunc ((wS2.tEnd - wS2.tStart) / wS2.dt) }

def wLineState : SolverState :=
  { cells := [.line wLineData], tStart := 0, tEnd := 1, nt := 1, dt := 1,
    meshName := "m", fishing_borders := ((0, 1), (0, 1)) }

def wMixState : SolverState :=
  { cells := [.tri wT0, .line wLineData], tStart := 0, tEnd := 1, nt := 1, dt := 1,
    meshName := "m", fishing_borders := ((0, 1), (0, 1)) }

/-- Witness for C1 at a concrete one-triangle state: the step succeeds and the
committed value matches the spec formula. -/
theorem calculate_jacobi_step_witness :
    calculate wState1 = some wState1After ∧
    (wState1After.cells.map Cell.oil_value)[0]? =
      some (specNewValue wState1.dt wState1.cells (wState1.cells.map Cell.oil_value) 0 wT0) := by
  have hc : calculate wState1 = some wState1After := by
    norm_num [calculate, newValues, optMapM, edgeLoop, flux_function, dot, vadd, vscale,
      Cell.oil_value, Cell.neighbors, Cell.normals?, Cell.area?, Cell.velocity, Cell.setOil,
      wState1, wState1After, wT0, List.range_succ]
  exact ⟨hc, calculate_jacobi_step wState1 wState1After 0 wT0 hc rfl⟩

/-! ### Claim C5: restart-load failure conditions -/

/-- C5 (counterexample to the claim as stated): loading a one-value file into
a two-cell mesh does NOT fail — `zip` silently truncates, so the count
mismatch goes undetected. -/
theorem load_state_count_mismatch_not_detected :
    load_state (some [5]) (some []) wS2 = .ok wS2' ∧
    ([5] : List ℚ).length ≠ wS2.cells.length := by
  exact ⟨rfl, by decide⟩

/-- C5 (amended): `load_state` fails (with the `FileNotFoundError` condition)
exactly when either restart file is absent; a saved-value count that differs
from the cell count is NOT detected: the zip silently truncates, overwriting
only a prefix of the field (or ignoring the excess values), and the load
proceeds. -/
theorem load_cells_eq (S : SolverState) (oil : List ℚ) (meta : List (String × MetaVal))
    (S' : SolverState) (h : load_state (some oil) (some meta) S = .ok S') :
    S'.cells = List.zipWith Cell.setOil S.cells oil ++ S.cells.drop oil.length := by
  simp only [load_state] at h
  cases hm : metaLoop S.tStart meta with
  | error e => rw [hm] at h; cases h
  | ok tS =>
    rw [hm] at h
    cases h
    rfl

theorem load_state_failure_amended :
    (∀ (S : SolverState) (meta : Option (List (String × MetaVal))),
      load_state none meta S = .error "FileNotFoundError") ∧
    (∀ (S : SolverState) (oil : List ℚ),
      load_state (some oil) none S = .error "FileNotFoundError") ∧
    (∀ (S : SolverState) (oil : List ℚ) (meta : List (String × MetaVal)) (S' : SolverState),
      load_state (some oil) (some meta) S = .ok S' →
      S'.cells = List.zipWith Cell.setOil S.cells oil ++ S.cells.drop oil.length) :=
  ⟨fun S meta => by cases meta <;> rfl, fun S oil => rfl,
   fun S oil meta S' h => load_cells_eq S oil meta S' h⟩

/-- Witness for C5 (amended) at concrete inputs. -/
theorem load_state_failure_amended_witness :
    load_state none (some []) wS2 = .error "FileNotFoundError" ∧
    load_state (some [5]) none wS2 = .error "FileNotFoundError" ∧
    load_state (some [5]) (some []) wS2 = .ok wS2' ∧
    wS2'.cells = List.zipWith Cell.setOil wS2.cells [5] ++ wS2.cells.drop ([5] : List ℚ).length :=
  ⟨load_state_failure_amended.1 wS2 (some []),
   load_state_failure_amended.2.1 wS2 [5],
   rfl,
   load_state_failure_amended.2.2 wS2 [5] [] wS2' rfl⟩

/-! ### Claim C8: what the save operation writes -/

/-- Helper: the first component of a successful `save_state` is the whole
per-cell value list. -/
theorem save_oil_eq (S : SolverState) (oil : List ℚ)
    (meta : List (String × MetaVal)) (h : save_state S = some (oil, meta)) :
    oil = S.cells.map Cell.oil_value := by
  unfold save_state at h
  cases hmx : (S.cells.map Cell.oil_value).max? with
  | none => rw [hmx] at h; cases h
  | some mx =>
    rw [hmx] at h
    cases hmn : (S.cells.map Cell.oil_value).min? with
    | none => rw [hmn] at h; cases h
    | some mn =>
      rw [hmn] at h
      cases h
      rfl

/-- C8 (amended): the oil-values file written by `save_state` contains exactly
the `oil_value` of EVERY cell, in creation order — one line per cell,
Triangles and Lines alike (Lines are written too, contrary to the claim). -/
theorem save_state_all_cells (S : SolverState) (oil : List ℚ)
    (meta : List (String × MetaVal)) (h : save_state S = some (oil, meta)) :
    oil = S.cells.map Cell.oil_value :=
  save_oil_eq S oil meta h

/-- Witness for C8 (amended) at a concrete one-line-cell state. -/
theorem save_state_all_cells_witness :
    save_state wLineState = some ([0],
      [("tStart", .q 0), ("tEnd", .q 1), ("meshName", .s "m"),
       ("max_oil", .q 0), ("min_oil", .q 0), ("total_oil", .q 0),
       ("fishing_grounds_oil", .q 0), ("fishing_borders", .borders ((0, 1), (0, 1)))]) ∧
    ([0] : List ℚ) = wLineState.cells.map Cell.oil_value := by
  have hs : save_state wLineState = some ([0],
      [("tStart", .q 0), ("tEnd", .q 1), ("meshName", .s "m"),
       ("max_oil", .q 0), ("min_oil", .q 0), ("total_oil", .q 0),
       ("fishing_grounds_oil", .q 0), ("fishing_borders", .borders ((0, 1), (0, 1)))]) := by
    norm_num [save_state, fishing_cells, Cell.oil_value, Cell.ctype, Cell.midpoint,
      wLineState, wLineData, List.max?, List.min?, List.filter_cons, List.filter_nil,
      ( by decide : ("line" : String) ≠ "triangle")]
  exact ⟨hs, save_state_all_cells wLineState _ _ hs⟩

/-- C8 (counterexample to the claim as stated): a mesh with one Triangle and
one Line produces a two-line oil-values file, not one line per Triangle. -/
theorem save_state_writes_lines_too :
    (save_state wMixState).map (fun p => p.1.length) = some 2 ∧
    ([Cell.tri wT0, Cell.line wLineData].filter fun c => c.ctype == "triangle").length = 1 := by
  constructor
  · norm_num [save_state, fishing_cells, Cell.oil_value, Cell.ctype, Cell.midpoint,
      wMixState, wT0, wLineData, List.max?, List.min?, List.filter_cons, List.filter_nil,
      ( by decide : ("line" : String) ≠ "triangle"),
      ( by decide : ("triangle" : String) = "triangle")]
  · decide

/-! ### Claim C9: the lifetime of a Line's value -/

theorem edgeLoop_skip_all (dt : ℚ) (cells : List Cell) (u : List ℚ) (ui : ℚ) (cell : Cell) :
    ∀ (l : List ℤ) (i : ℕ) (acc : ℚ), (∀ n ∈ l, n < 0) →
      edgeLoop dt cells u ui cell acc i l = some acc
  | [], _, _, _ => rfl
  | ngh :: rest, i, acc, h => by
    have hn : ngh < 0 := h ngh (.head _)
    simp only [edgeLoop, if_pos hn]
    exact edgeLoop_skip_all dt cells u ui cell rest (i + 1) acc fun n hn2 => h n (.tail _ hn2)

/-- C9 (counterexample to the claim as stated): loading the restart value file
`[1]` onto a mesh whose only cell is a Line assigns that Line the value 1 —
the restart load CAN set a Line's value to a non-zero number. -/
theorem load_state_sets_line_nonzero :
    load_state (some [1]) (some []) wLineState =
      .ok { wLineState with
        cells := List.zipWith Cell.setOil wLineState.cells [1] ++ wLineState.cells.drop 1
        tStart := wLineState.tStart
        nt := pyTrunc ((wLineState.tEnd - wLineState.tStart) / wLineState.dt) } ∧
    ((List.zipWith Cell.setOil wLineState.cells [1] ++ wLineState.cells.drop 1).map
      Cell.oil_value)[0]? = some 1 ∧ (1 : ℚ) ≠ 0 :=
  ⟨rfl, rfl, one_ne_zero⟩

/-- C9 (amended): a Line's value is 0 at construction, its neighbor slots are
all `-1` and stay so through `find_neighbors`, and the time step never changes
a Line's value; the restart load, however, overwrites every cell — including
Lines — with the corresponding saved entry, so it keeps a Line at 0 exactly
when the loaded file was produced by `save_state` from a mesh whose cell at
the same creation position is a Line with value 0 (as in any self-produced
restart); an arbitrary hand-written file can set a Line to a non-zero value
(see the counterexample). -/
theorem line_value_invariant :
    (∀ (pids : List ℕ) (idx : ℕ) (pts : List Vec), (mkLine pids idx pts).oil_value = 0) ∧
    (∀ (pids : List ℕ) (idx : ℕ) (pts : List Vec),
      ∀ n ∈ (mkLine pids idx pts).neighbors, n < 0) ∧
    (∀ (cells : List Cell) (i : ℕ) (l : LineData), cells[i]? = some (.line l) →
      (find_neighbors cells)[i]? = some (.line l)) ∧
    (∀ (S S' : SolverState) (i : ℕ) (l : LineData), calculate S = some S' →
      S.cells[i]? = some (.line l) → (∀ n ∈ l.neighbors, n < 0) →
      (S'.cells.map Cell.oil_value)[i]? = some l.oil_value) ∧
    (∀ (S F : SolverState) (oil : List ℚ) (meta : List (String × MetaVal)) (F' : SolverState)
      (i : ℕ) (lF lS : LineData),
      save_state S = some (oil, meta) → load_state (some oil) (some meta) F = .ok F' →
      F.cells[i]? = some (.line lF) → S.cells[i]? = some (.line lS) → lS.oil_value = 0 →
      (F'.cells.map Cell.oil_value)[i]? = some 0) := by
  refine ⟨fun pids idx pts => rfl, ?_, ?_, ?_, ?_⟩
  · intro pids idx pts n hn
    simp only [mkLine, List.mem_map] at hn
    obtain ⟨p, hp, hpn⟩ := hn
    omega
  · intro cells i l h
    simp only [find_neighbors, List.getElem?_map, h, Option.map_some']
  · intro S S' i l hc ht hneg
    unfold calculate at hc
    cases hnv : newValues S.dt S.cells (S.cells.map Cell.oil_value) with
    | none => rw [hnv] at hc; exact absurd hc (by simp)
    | some ys =>
      rw [hnv] at hc
      simp only [Option.map_some', Option.some.injEq] at hc
      have hlt : i < S.cells.length := (List.getElem?_eq_some.mp ht).1
      have hui : (S.cells.map Cell.oil_value)[i]? = some l.oil_value := by
        rw [List.getElem?_map, ht]; rfl
      unfold newValues at hnv
      obtain ⟨y, hy, hysi⟩ := optMapM_get? _ _ _ hnv i i (List.getElem?_range hlt)
      rw [ht, hui] at hy
      simp only [Option.bind_eq_bind, Option.some_bind] at hy
      rw [show (Cell.line l).neighbors = l.neighbors from rfl,
        edgeLoop_skip_all S.dt S.cells (S.cells.map Cell.oil_value) l.oil_value
          (Cell.line l) l.neighbors 0 0 hneg] at hy
      simp only [Option.some_bind, Option.pure_def, Option.some.injEq] at hy
      rw [← hc]
      show ((List.zipWith Cell.setOil S.cells ys).map Cell.oil_value)[i]? = _
      rw [List.getElem?_map, List.getElem?_zipWith, ht, hysi]
      simp only [Option.map_some']
      rw [show Cell.oil_value ((Cell.line l).setOil y) = y from rfl, ← hy]
      rw [add_zero]
  · intro S F oil meta F2 i lF lS hsave hload hF hS h0
    have hoil : oil = S.cells.map Cell.oil_value := save_oil_eq S oil meta hsave
    have hcells := load_cells_eq F oil meta F2 hload
    have hiF : i < F.cells.length := (List.getElem?_eq_some.mp hF).1
    have hiS : i < S.cells.length := (List.getElem?_eq_some.mp hS).1
    have hoi : oil[i]? = some 0 := by
      rw [hoil, List.getElem?_map, hS, Option.map_some']
      rw [show Cell.oil_value (Cell.line lS) = lS.oil_value from rfl, h0]
    have hzlen : i < (List.zipWith Cell.setOil F.cells oil).length := by
      rw [List.length_zipWith]
      have : i < oil.length := (List.getElem?_eq_some.mp hoi).1
      omega
    rw [hcells, List.getElem?_map, List.getElem?_append, if_pos hzlen, List.getElem?_zipWith, hF, hoi]
    rfl

/-- Metadata lines produced by `save_state` on `wLineState`. -/
def wLineMeta : List (String × MetaVal) :=
  [("tStart", .q 0), ("tEnd", .q 1), ("meshName", .s "m"),
   ("max_oil", .q 0), ("min_oil", .q 0), ("total_oil", .q 0),
   ("fishing_grounds_oil", .q 0), ("fishing_borders", .borders ((0, 1), (0, 1)))]

theorem wLineState_save : save_state wLineState = some ([0], wLineMeta) := by
  norm_num [save_state, fishing_cells, Cell.oil_value, Cell.ctype, Cell.midpoint,
    wLineState, wLineData, wLineMeta, List.max?, List.min?, List.filter_cons, List.filter_nil,
    ( by decide : ("line" : String) ≠ "triangle")]

/-- The state produced by loading the `wLineState` save back into `wLineState`. -/
def wLineLoaded : SolverState :=
  { wLineState with
    cells := List.zipWith Cell.setOil wLineState.cells [0] ++ wLineState.cells.drop 1
    tStart := wLineState.tStart
    nt := pyTrunc ((wLineState.tEnd - wLineState.tStart) / wLineState.dt) }

/-- Witness for C9 (amended) at concrete inputs: construction gives 0, the
step leaves the Line untouched, and the save/load round trip keeps it at 0. -/
theorem line_value_invariant_witness :
    (mkLine [0, 1] 0 [(0, 0), (1, 0)]).oil_value = 0 ∧
    calculate wLineState = some wLineState ∧
    (wLineState.cells.map Cell.oil_value)[0]? = some wLineData.oil_value ∧
    load_state (some [0]) (some wLineMeta) wLineState = .ok wLineLoaded ∧
    (wLineLoaded.cells.map Cell.oil_value)[0]? = some 0 := by
  have hc : calculate wLineState = some wLineState := by
    norm_num [calculate, newValues, optMapM, edgeLoop, Cell.oil_value, Cell.neighbors,
      Cell.setOil, wLineState, wLineData, List.range_succ]
  have hl : load_state (some [0]) (some wLineMeta) wLineState = .ok wLineLoaded := rfl
  refine ⟨line_value_invariant.1 [0, 1] 0 [(0, 0), (1, 0)], hc, ?_, hl, ?_⟩
  · exact line_value_invariant.2.2.2.1 wLineState wLineState 0 wLineData hc rfl (by decide)
  · exact line_value_invariant.2.2.2.2 wLineState wLineState [0] wLineMeta wLineLoaded 0
      wLineData wLineData wLineState_save hl rfl rfl rfl

/-! ### Claim C7: the save/load round trip -/

theorem metaLoop_no_keys (t0 : ℚ) :
    ∀ (meta : List (String × MetaVal)),
      (∀ kv ∈ meta, kv.1 ≠ "current_time" ∧ kv.1 ≠ "remaining_steps") →
      metaLoop t0 meta = .ok t0
  | [] => fun _ => rfl
  | (k, v) :: rest => fun h => by
    have hk := h (k, v) (.head _)
    simp only [metaLoop, if_neg hk.1, if_neg hk.2]
    exact metaLoop_no_keys t0 rest fun kv hkv => h kv (.tail _ hkv)

theorem save_meta_keys (S : SolverState) (oil : List ℚ) (meta : List (String × MetaVal))
    (h : save_state S = some (oil, meta)) :
    ∀ kv ∈ meta, kv.1 ≠ "current_time" ∧ kv.1 ≠ "remaining_steps" := by
  unfold save_state at h
  cases hmx : (S.cells.map Cell.oil_value).max? with
  | none => rw [hmx] at h; cases h
  | some mx =>
    rw [hmx] at h
    cases hmn : (S.cells.map Cell.oil_value).min? with
    | none => rw [hmn] at h; cases h
    | some mn =>
      rw [hmn] at h
      cases h
      intro kv hkv
      simp only [List.mem_cons, List.not_mem_nil, or_false] at hkv
      rcases hkv with h1 | h1 | h1 | h1 | h1 | h1 | h1 | h1 <;> subst h1 <;>
        exact ⟨by simp, by simp⟩

theorem map_oil_zipWith : ∀ (cs : List Cell) (vs : List ℚ), vs.length = cs.length →
    (List.zipWith Cell.setOil cs vs).map Cell.oil_value = vs
  | [], [], _ => rfl
  | [], v :: vs, h => by simp at h
  | c :: cs, [], h => by simp at h
  | c :: cs, v :: vs, h => by
    simp only [List.zipWith_cons_cons, List.map_cons]
    rw [show Cell.oil_value (c.setOil v) = v from by cases c <;> rfl,
      map_oil_zipWith cs vs (by simpa using h)]

theorem pyTrunc_intCast (n : ℤ) : pyTrunc ((n : ℤ) : ℚ) = n := by
  simp [pyTrunc, Rat.num_intCast, Rat.den_intCast]

/-- C7: saving a solver state and loading the two files into a fresh solver
bound to the same mesh (same cell count, same run parameters) succeeds and
reproduces the identical per-cell scalar field and the identical remaining
step count (exact arithmetic; `tEnd ≠ tStart` and a positive step count make
`dt` well defined). -/
theorem save_load_round_trip (S F : SolverState) (oil : List ℚ)
    (meta : List (String × MetaVal))
    (hlen : F.cells.length = S.cells.length)
    (hts : F.tStart = S.tStart) (hte : F.tEnd = S.tEnd) (hdt : F.dt = S.dt)
    (hdtdef : S.dt = (S.tEnd - S.tStart) / (S.nt : ℚ))
    (hne : S.tEnd ≠ S.tStart) (hpos : 0 < S.nt)
    (hsave : save_state S = some (oil, meta)) :
    ∃ F', load_state (some oil) (some meta) F = .ok F' ∧
      F'.cells.map Cell.oil_value = S.cells.map Cell.oil_value ∧ F'.nt = S.nt := by
  have hoil : oil = S.cells.map Cell.oil_value := save_oil_eq S oil meta hsave
  have hml : metaLoop F.tStart meta = .ok F.tStart :=
    metaLoop_no_keys F.tStart meta (save_meta_keys S oil meta hsave)
  have holen : oil.length = F.cells.length := by
    rw [hoil, List.length_map, hlen]
  refine ⟨{ F with
      cells := List.zipWith Cell.setOil F.cells oil ++ F.cells.drop oil.length
      tStart := F.tStart
      nt := pyTrunc ((F.tEnd - F.tStart) / F.dt) }, ?_, ?_, ?_⟩
  · simp only [load_state, hml]
  · show (List.zipWith Cell.setOil F.cells oil ++ F.cells.drop oil.length).map
        Cell.oil_value = S.cells.map Cell.oil_value
    rw [holen, List.drop_length, List.append_nil, map_oil_zipWith F.cells oil holen, hoil]
  · show pyTrunc ((F.tEnd - F.tStart) / F.dt) = S.nt
    rw [hte, hts, hdt, hdtdef]
    have hx : S.tEnd - S.tStart ≠ 0 := sub_ne_zero.mpr hne
    have hn0 : (S.nt : ℚ) ≠ 0 := Int.cast_ne_zero.mpr hpos.ne.symm
    rw [show (S.tEnd - S.tStart) / ((S.tEnd - S.tStart) / (S.nt : ℚ)) = ((S.nt : ℤ) : ℚ) by
      field_simp]
    exact pyTrunc_intCast S.nt

def wSaveState : SolverState :=
  { cells := [.tri { wT0 with oil_value := 3, neighbors := [-1, -1, -1] }],
    tStart := 0, tEnd := 1, nt := 2, dt := 1/2,
    meshName := "w", fishing_borders := ((0, 1), (0, 1)) }

def wFreshState : SolverState :=
  { cells := [.tri { wT0 with oil_value := 7, neighbors := [-1, -1, -1] }],
    tStart := 0, tEnd := 1, nt := 2, dt := 1/2,
    meshName := "w", fishing_borders := ((0, 1), (0, 1)) }

def wSaveMeta : List (String × MetaVal) :=
  [("tStart", .q 0), ("tEnd", .q 1), ("meshName", .s "w"),
   ("max_oil", .q 3), ("min_oil", .q 3), ("total_oil", .q 3),
   ("fishing_grounds_oil", .q 3), ("fishing_borders", .borders ((0, 1), (0, 1)))]

/-- Witness for C7 at a concrete one-triangle state: the saved field `[3]`
is reproduced in the fresh solver and the step count stays 2. -/
theorem save_load_round_trip_witness :
    wFreshState.cells.length = wSaveState.cells.length ∧
    save_state wSaveState = some ([3], wSaveMeta) ∧
    (∃ F', load_state (some [3]) (some wSaveMeta) wFreshState = .ok F' ∧
      F'.cells.map Cell.oil_value = wSaveState.cells.map Cell.oil_value ∧
      F'.nt = wSaveState.nt) := by
  have hs : save_state wSaveState = some ([3], wSaveMeta) := by
    norm_num [save_state, fishing_cells, Cell.oil_value, Cell.ctype, Cell.midpoint,
      wSaveState, wT0, wSaveMeta, List.max?, List.min?, List.filter_cons, List.filter_nil,
      ( by decide : ("triangle" : String) = "triangle")]
  exact ⟨rfl, hs,
    save_load_round_trip wSaveState wFreshState [3] wSaveMeta rfl rfl rfl rfl
      (by norm_num [wSaveState]) (by norm_num [wSaveState]) (by decide) hs⟩

/-! ### Claim C6: conservation across one time step -/

/-- A closed all-triangle mesh state given by per-index data: every one of the
three neighbor entries of every triangle is a real cell index (`Fin n`), so
no `-1` sentinel occurs anywhere. -/
structure ClosedMesh (n : ℕ) where
  pid : Fin n → List ℕ
  pts : Fin n → List Vec
  mid : Fin n → Vec
  vel : Fin n → Vec
  u : Fin n → ℚ
  A : Fin n → ℚ
  nrm : Fin n → Fin 3 → Vec
  ngh : Fin n → Fin 3 → Fin n

def ClosedMesh.tri {n : ℕ} (M : ClosedMesh n) (i : Fin n) : TriangleData :=
  { point_ids := M.pid i, idx := i.val, points := M.pts i, midpoint := M.mid i,
    velocity := M.vel i, oil_value := M.u i, area := M.A i,
    normals := [M.nrm i 0, M.nrm i 1, M.nrm i 2],
    neighbors := [((M.ngh i 0).val : ℤ), ((M.ngh i 1).val : ℤ), ((M.ngh i 2).val : ℤ)] }

def ClosedMesh.state {n : ℕ} (M : ClosedMesh n) (tS tE : ℚ) (nt : ℤ) (dt : ℚ)
    (mname : String) (fb : (ℚ × ℚ) × (ℚ × ℚ)) : SolverState :=
  { cells := (List.finRange n).map fun i => .tri (M.tri i),
    tStart := tS, tEnd := tE, nt := nt, dt := dt, meshName := mname, fishing_borders := fb }

/-- The flux the solver computes through edge `p.2` of triangle `p.1`. -/
def ClosedMesh.flux {n : ℕ} (M : ClosedMesh n) (p : Fin n × Fin 3) : ℚ :=
  flux_function (M.u p.1) (M.u (M.ngh p.1 p.2)) (M.nrm p.1 p.2)
    (vscale (1/2) (vadd (M.vel p.1) (M.vel (M.ngh p.1 p.2))))

/-- The edge contribution `(dt / area) * flux`. -/
def ClosedMesh.term {n : ℕ} (M : ClosedMesh n) (dt : ℚ) (p : Fin n × Fin 3) : ℚ :=
  (dt / M.A p.1) * M.flux p

theorem vadd_comm (a b : Vec) : vadd a b = vadd b a := by
  simp only [vadd, Prod.mk.injEq]
  exact ⟨add_comm _ _, add_comm _ _⟩

/-- Upwind flux antisymmetry: flipping the normal and swapping the two cell
values negates the flux. -/
theorem flux_function_antisymm (a b : ℚ) (nv v : Vec) :
    flux_function b a (vneg nv) v = -flux_function a b nv v := by
  simp only [flux_function]
  have hd : dot (vneg nv) v = -dot nv v := by
    simp only [dot, vneg]
    ring
  rw [hd]
  rcases lt_trichotomy (dot nv v) 0 with h | h | h
  · rw [if_pos (by linarith), if_neg (by linarith)]
    ring
  · rw [h]
    norm_num
  · rw [if_neg (by linarith), if_pos h]
    ring

theorem finRange_getElem? {n k : ℕ} (h : k < n) : (List.finRange n)[k]? = some ⟨k, h⟩ := by
  rw [List.getElem?_eq_getElem (by simpa [List.length_finRange] using h)]
  congr 1
  rw [List.getElem_finRange]
  apply Fin.ext
  simp

theorem optMapM_map_eq (f : α → Option γ) (g : β → α) (h : β → γ) :
    ∀ (l : List β), (∀ x ∈ l, f (g x) = some (h x)) →
      optMapM f (l.map g) = some (l.map h)
  | [], _ => rfl
  | x :: xs, hx => by
    simp only [List.map_cons, optMapM, Option.bind_eq_bind, hx x (.head _), Option.some_bind,
      optMapM_map_eq f g h xs (fun y hy => hx y (.tail _ hy)), Option.pure_def]

/-- Helper: on a closed all-triangle state, one `calculate` step succeeds and
commits, for every triangle, the snapshot value minus the three edge terms. -/
theorem calculate_closed {n : ℕ} (M : ClosedMesh n)
    (tS tE : ℚ) (nt : ℤ) (dt : ℚ) (mname : String) (fb : (ℚ × ℚ) × (ℚ × ℚ)) :
    calculate (M.state tS tE nt dt mname fb) =
      some { M.state tS tE nt dt mname fb with
        cells := List.zipWith Cell.setOil (M.state tS tE nt dt mname fb).cells
          ((List.finRange n).map fun i =>
            M.u i + (0 - M.term dt (i, 0) - M.term dt (i, 1) - M.term dt (i, 2))) } := by
  have hnonneg : ∀ k : ℕ, ¬ ((k : ℤ) < 0) := fun k => not_lt.mpr (Int.natCast_nonneg k)
  have hcells : (M.state tS tE nt dt mname fb).cells =
      (List.finRange n).map fun i => .tri (M.tri i) := rfl
  have hlen : (M.state tS tE nt dt mname fb).cells.length = n := by
    rw [hcells, List.length_map, List.length_finRange]
  have hcell : ∀ k : Fin n,
      (M.state tS tE nt dt mname fb).cells[k.val]? = some (.tri (M.tri k)) := by
    intro k
    rw [hcells, List.getElem?_map, finRange_getElem? k.isLt, Option.map_some']
  have humap : (M.state tS tE nt dt mname fb).cells.map Cell.oil_value =
      (List.finRange n).map fun i => M.u i := by
    rw [hcells, List.map_map]
    rfl
  have hu : ∀ k : Fin n,
      ((M.state tS tE nt dt mname fb).cells.map Cell.oil_value)[k.val]? = some (M.u k) := by
    intro k
    rw [humap, List.getElem?_map, finRange_getElem? k.isLt, Option.map_some']
  have hedge : ∀ i : Fin n,
      edgeLoop dt (M.state tS tE nt dt mname fb).cells
        ((M.state tS tE nt dt mname fb).cells.map Cell.oil_value)
        (M.u i) (.tri (M.tri i)) 0 0 (M.tri i).neighbors =
      some (0 - M.term dt (i, 0) - M.term dt (i, 1) - M.term dt (i, 2)) := by
    intro i
    simp only [ClosedMesh.tri, edgeLoop, hnonneg, if_false, Cell.normals?, Cell.area?,
      Cell.velocity, Option.bind_eq_bind, Option.some_bind, Int.toNat_natCast,
      List.getElem?_cons_zero, List.getElem?_cons_succ, hcell, hu,
      ClosedMesh.term, ClosedMesh.flux]
  have hnv : newValues dt (M.state tS tE nt dt mname fb).cells
      ((M.state tS tE nt dt mname fb).cells.map Cell.oil_value) =
      some ((List.finRange n).map fun i =>
        M.u i + (0 - M.term dt (i, 0) - M.term dt (i, 1) - M.term dt (i, 2))) := by
    unfold newValues
    rw [hlen, ← List.map_coe_finRange]
    apply optMapM_map_eq
    intro i _
    rw [hcell i, hu i]
    simp only [Option.bind_eq_bind, Option.some_bind]
    rw [show (Cell.tri (M.tri i)).neighbors = (M.tri i).neighbors from rfl, hedge i]
    rfl
  unfold calculate
  rw [show (M.state tS tE nt dt mname fb).dt = dt from rfl, hnv]
  rfl

/-- C6 (amended): on a closed all-triangle mesh whose adjacency carries an
involutive edge pairing with opposite normals on the two sides of every
shared edge (as in any geometrically consistent closed mesh) and non-zero
areas, one `calculate` step conserves the area-weighted total
`sum of area_i * value_i` exactly.  The PLAIN sum of values, as the claim
states it, is not conserved (see the counterexample): each flux enters the
two adjacent cells weighted by `dt/area_i` and `dt/area_j` respectively. -/
theorem calculate_conserves_mass {n : ℕ} (M : ClosedMesh n)
    (σ : Fin n × Fin 3 → Fin n × Fin 3)
    (tS tE : ℚ) (nt : ℤ) (dt : ℚ) (mname : String) (fb : (ℚ × ℚ) × (ℚ × ℚ))
    (hσ : Function.Involutive σ)
    (hσn : ∀ p, (σ p).1 = M.ngh p.1 p.2)
    (hnrm : ∀ p, M.nrm (σ p).1 (σ p).2 = vneg (M.nrm p.1 p.2))
    (hA : ∀ i, M.A i ≠ 0) :
    ∃ S', calculate (M.state tS tE nt dt mname fb) = some S' ∧
      (S'.cells.map fun c => c.area?.getD 0 * c.oil_value).sum =
      ((M.state tS tE nt dt mname fb).cells.map fun c => c.area?.getD 0 * c.oil_value).sum := by
  have hcells : (M.state tS tE nt dt mname fb).cells =
      (List.finRange n).map fun i => .tri (M.tri i) := rfl
  refine ⟨_, calculate_closed M tS tE nt dt mname fb, ?_⟩
  show (List.map (fun c => c.area?.getD 0 * c.oil_value)
      (List.zipWith Cell.setOil (M.state tS tE nt dt mname fb).cells
        ((List.finRange n).map fun i =>
          M.u i + (0 - M.term dt (i, 0) - M.term dt (i, 1) - M.term dt (i, 2))))).sum = _
  rw [hcells]
  rw [List.zipWith_map, List.zipWith_same, List.map_map, List.map_map]
  rw [show ((fun c => c.area?.getD 0 * c.oil_value) ∘
      fun a => Cell.setOil (Cell.tri (M.tri a))
        (M.u a + (0 - M.term dt (a, 0) - M.term dt (a, 1) - M.term dt (a, 2)))) =
    fun i => M.A i * (M.u i + (0 - M.term dt (i, 0) - M.term dt (i, 1) - M.term dt (i, 2)))
    from by
      funext i
      simp [Cell.setOil, Cell.area?, Cell.oil_value, ClosedMesh.tri]]
  rw [show ((fun c => c.area?.getD 0 * c.oil_value) ∘ fun i => Cell.tri (M.tri i)) =
    fun i => M.A i * M.u i from by
      funext i
      simp [Cell.area?, Cell.oil_value, ClosedMesh.tri]]
  rw [← Fin.sum_univ_def, ← Fin.sum_univ_def]
  have hpoint : ∀ i : Fin n,
      M.A i * (M.u i + (0 - M.term dt (i, 0) - M.term dt (i, 1) - M.term dt (i, 2))) =
      M.A i * M.u i - dt * (M.flux (i, 0) + M.flux (i, 1) + M.flux (i, 2)) := by
    intro i
    have h0 := hA i
    simp only [ClosedMesh.term]
    field_simp
    ring
  have hanti : ∀ p, M.flux (σ p) = -M.flux p := by
    intro p
    have h1 : (σ (σ p)).1 = M.ngh (σ p).1 (σ p).2 := hσn (σ p)
    rw [hσ p] at h1
    simp only [ClosedMesh.flux]
    rw [hnrm p, ← h1, hσn p, vadd_comm]
    exact flux_function_antisymm (M.u p.1) (M.u (M.ngh p.1 p.2)) (M.nrm p.1 p.2) _
  have hsum0 : (∑ p : Fin n × Fin 3, M.flux p) = 0 := by
    have hcomp := Equiv.sum_comp (Function.Involutive.toPerm σ hσ) M.flux
    simp only [Function.Involutive.coe_toPerm] at hcomp
    rw [show (∑ i : Fin n × Fin 3, M.flux (σ i)) = ∑ i : Fin n × Fin 3, -M.flux i from
      Finset.sum_congr rfl fun p _ => hanti p, Finset.sum_neg_distrib] at hcomp
    linarith
  have hxx : (∑ i : Fin n, (M.flux (i, 0) + M.flux (i, 1) + M.flux (i, 2))) =
      ∑ p : Fin n × Fin 3, M.flux p := by
    rw [Fintype.sum_prod_type]
    exact Finset.sum_congr rfl fun i _ => by rw [Fin.sum_univ_three]
  rw [Finset.sum_congr rfl fun i _ => hpoint i, Finset.sum_sub_distrib, ← Finset.mul_sum,
    hxx, hsum0, mul_zero, sub_zero]

/-- Point coordinates of a combinatorially closed four-triangle mesh (the
triangles pairwise share an edge, so no neighbor slot stays `-1`). -/
def tetraPts : List Vec := [(0, 0), (1, 0), (0, 1), (2, 3)]

def tetraPt (i : ℕ) : Vec := tetraPts.getD i (0, 0)

/-- Build one triangle cell of the closed mesh through the real constructor;
the fallback line is provably never taken (see the counterexample's first
conjunct). -/
def tetraTri (pids : List ℕ) (idx : ℕ) (oil : ℚ) : Cell :=
  match mkTriangle pids idx (pids.map tetraPt) oil with
  | .ok t => .tri t
  | .error _ => .line (mkLine [] 0 [])

def tetraCells : List Cell :=
  find_neighbors [tetraTri [0, 1, 2] 0 1, tetraTri [0, 1, 3] 1 0,
    tetraTri [1, 2, 3] 2 0, tetraTri [0, 2, 3] 3 0]

def tetraState : SolverState :=
  { cells := tetraCells, tStart := 0, tEnd := 1, nt := 1, dt := 1,
    meshName := "tetra", fishing_borders := ((0, 1), (0, 1)) }


def tC0 : TriangleData :=
  { point_ids := [0, 1, 2], idx := 0, points := [(0, 0), (1, 0), (0, 1)],
    midpoint := (1/3, 1/3), velocity := (4/15, -(1/3)), oil_value := 1, area := 1/2,
    normals := [(0, -1), (1, 1), (-1, 0)], neighbors := [1, 2, 3] }

def tC1 : TriangleData :=
  { point_ids := [0, 1, 3], idx := 1, points := [(0, 0), (1, 0), (2, 3)],
    midpoint := (1, 1), velocity := (4/5, -1), oil_value := 0, area := 3/2,
    normals := [(0, -1), (3, -1), (-3, 2)], neighbors := [0, 2, 3] }

def tC2 : TriangleData :=
  { point_ids := [1, 2, 3], idx := 2, points := [(1, 0), (0, 1), (2, 3)],
    midpoint := (1, 4/3), velocity := (17/15, -1), oil_value := 0, area := 2,
    normals := [(-1, -1), (-2, 2), (3, -1)], neighbors := [0, 3, 1] }

def tC3 : TriangleData :=
  { point_ids := [0, 2, 3], idx := 3, points := [(0, 0), (0, 1), (2, 3)],
    midpoint := (2/3, 4/3), velocity := (6/5, -(2/3)), oil_value := 0, area := 1,
    normals := [(-1, 0), (-2, 2), (3, -2)], neighbors := [0, 2, 1] }

def tetraCM : ClosedMesh 4 :=
  { pid := ![[0, 1, 2], [0, 1, 3], [1, 2, 3], [0, 2, 3]]
    pts := ![[(0, 0), (1, 0), (0, 1)], [(0, 0), (1, 0), (2, 3)],
             [(1, 0), (0, 1), (2, 3)], [(0, 0), (0, 1), (2, 3)]]
    mid := ![(1/3, 1/3), (1, 1), (1, 4/3), (2/3, 4/3)]
    vel := ![(4/15, -(1/3)), (4/5, -1), (17/15, -1), (6/5, -(2/3))]
    u := ![1, 0, 0, 0]
    A := ![1/2, 3/2, 2, 1]
    nrm := ![![(0, -1), (1, 1), (-1, 0)], ![(0, -1), (3, -1), (-3, 2)],
             ![(-1, -1), (-2, 2), (3, -1)], ![(-1, 0), (-2, 2), (3, -2)]]
    ngh := ![![1, 2, 3], ![0, 2, 3], ![0, 3, 1], ![0, 2, 1]] }

theorem tetraCells_eq :
    tetraCells = (List.finRange 4).map fun i => Cell.tri (tetraCM.tri i) := by
  rw [show (List.finRange 4).map (fun i => Cell.tri (tetraCM.tri i)) =
      [Cell.tri tC0, Cell.tri tC1, Cell.tri tC2, Cell.tri tC3] from rfl]
  norm_num [tetraCells, tetraTri, tetraPts, tetraPt, find_neighbors, compute_neighbors,
    cnAux, cnStep, sharedCount, firstMatchEdge, rot1, mkTriangle, mkMidpoint, mkVelocity,
    mkNormal, mkLine, Cell.point_ids, abs, tC0, tC1, tC2, tC3, vsub, vneg, dot]

theorem tetraState_eq : tetraState = tetraCM.state 0 1 1 1 "tetra" ((0, 1), (0, 1)) := by
  show SolverState.mk tetraCells 0 1 1 1 "tetra" ((0, 1), (0, 1)) =
    SolverState.mk ((List.finRange 4).map fun i => Cell.tri (tetraCM.tri i))
      0 1 1 1 "tetra" ((0, 1), (0, 1))
  rw [tetraCells_eq]

theorem closed_plain_sum {n : ℕ} (M : ClosedMesh n) (tS tE : ℚ) (nt : ℤ) (dt : ℚ)
    (mname : String) (fb : (ℚ × ℚ) × (ℚ × ℚ)) :
    (calculate (M.state tS tE nt dt mname fb)).map (fun S => (S.cells.map Cell.oil_value).sum) =
      some (∑ i : Fin n,
        (M.u i + (0 - M.term dt (i, 0) - M.term dt (i, 1) - M.term dt (i, 2)))) := by
  rw [calculate_closed]
  simp only [Option.map_some']
  refine congrArg some ?_
  show (List.map Cell.oil_value
      (List.zipWith Cell.setOil ((List.finRange n).map fun i => Cell.tri (M.tri i))
        ((List.finRange n).map fun i =>
          M.u i + (0 - M.term dt (i, 0) - M.term dt (i, 1) - M.term dt (i, 2))))).sum = _
  rw [List.zipWith_map, List.zipWith_same, List.map_map]
  rw [show (Cell.oil_value ∘ fun a =>
      Cell.setOil (Cell.tri (M.tri a))
        (M.u a + (0 - M.term dt (a, 0) - M.term dt (a, 1) - M.term dt (a, 2)))) =
    fun i => M.u i + (0 - M.term dt (i, 0) - M.term dt (i, 1) - M.term dt (i, 2))
    from funext fun i => rfl]
  rw [← Fin.sum_univ_def]

set_option maxHeartbeats 1000000 in
/-- C6 (counterexample to the claim as stated): a mesh of four triangles in
which every edge has a real neighbor (no `-1` anywhere), built through the
real constructor and connectivity builder, on which one `calculate` step
changes the total scalar value from 1 to 7/20. -/
theorem calculate_sum_not_conserved :
    ((mkTriangle [0, 1, 2] 0 ([0, 1, 2].map tetraPt) 1).isOk &&
     (mkTriangle [0, 1, 3] 1 ([0, 1, 3].map tetraPt) 0).isOk &&
     (mkTriangle [1, 2, 3] 2 ([1, 2, 3].map tetraPt) 0).isOk &&
     (mkTriangle [0, 2, 3] 3 ([0, 2, 3].map tetraPt) 0).isOk) = true ∧
    (∀ c ∈ tetraState.cells, ∀ ngh ∈ c.neighbors, 0 ≤ ngh) ∧
    (calculate tetraState).map (fun S => (S.cells.map Cell.oil_value).sum) = some (7/20) ∧
    (tetraState.cells.map Cell.oil_value).sum = 1 ∧ ((7 : ℚ)/20 ≠ 1) := by
  have e0 : tetraCM.u 0 +
      (0 - tetraCM.term 1 (0, 0) - tetraCM.term 1 (0, 1) - tetraCM.term 1 (0, 2)) = -(2/5) := by
    show (1 : ℚ) +
        (0 - (1 / (1/2)) * flux_function 1 0 (0, -1)
              (vscale (1/2) (vadd (4/15, -(1/3)) (4/5, -1)))
           - (1 / (1/2)) * flux_function 1 0 (1, 1)
              (vscale (1/2) (vadd (4/15, -(1/3)) (17/15, -1)))
           - (1 / (1/2)) * flux_function 1 0 (-1, 0)
              (vscale (1/2) (vadd (4/15, -(1/3)) (6/5, -(2/3))))) = -(2/5)
    norm_num [flux_function, vscale, vadd, dot]
  have e1 : tetraCM.u 1 +
      (0 - tetraCM.term 1 (1, 0) - tetraCM.term 1 (1, 1) - tetraCM.term 1 (1, 2)) = 0 := by
    show (0 : ℚ) +
        (0 - (1 / (3/2)) * flux_function 0 1 (0, -1)
              (vscale (1/2) (vadd (4/5, -1) (4/15, -(1/3))))
           - (1 / (3/2)) * flux_function 0 0 (3, -1)
              (vscale (1/2) (vadd (4/5, -1) (17/15, -1)))
           - (1 / (3/2)) * flux_function 0 0 (-3, 2)
              (vscale (1/2) (vadd (4/5, -1) (6/5, -(2/3))))) = 0
    norm_num [flux_function, vscale, vadd, dot]
  have e2 : tetraCM.u 2 +
      (0 - tetraCM.term 1 (2, 0) - tetraCM.term 1 (2, 1) - tetraCM.term 1 (2, 2)) = 1/60 := by
    show (0 : ℚ) +
        (0 - (1 / 2) * flux_function 0 1 (-1, -1)
              (vscale (1/2) (vadd (17/15, -1) (4/15, -(1/3))))
           - (1 / 2) * flux_function 0 0 (-2, 2)
              (vscale (1/2) (vadd (17/15, -1) (6/5, -(2/3))))
           - (1 / 2) * flux_function 0 0 (3, -1)
              (vscale (1/2) (vadd (17/15, -1) (4/5, -1)))) = 1/60
    norm_num [flux_function, vscale, vadd, dot]
  have e3 : tetraCM.u 3 +
      (0 - tetraCM.term 1 (3, 0) - tetraCM.term 1 (3, 1) - tetraCM.term 1 (3, 2)) = 11/15 := by
    show (0 : ℚ) +
        (0 - (1 / 1) * flux_function 0 1 (-1, 0)
              (vscale (1/2) (vadd (6/5, -(2/3)) (4/15, -(1/3))))
           - (1 / 1) * flux_function 0 0 (-2, 2)
              (vscale (1/2) (vadd (6/5, -(2/3)) (17/15, -1)))
           - (1 / 1) * flux_function 0 0 (3, -2)
              (vscale (1/2) (vadd (6/5, -(2/3)) (4/5, -1)))) = 11/15
    norm_num [flux_function, vscale, vadd, dot]
  refine ⟨by decide, by decide, ?_, ?_, by norm_num⟩
  · rw [tetraState_eq, closed_plain_sum]
    refine congrArg some ?_
    rw [Fin.sum_univ_four, e0, e1, e2, e3]
    norm_num
  · rw [tetraState_eq]
    show (List.map Cell.oil_value
      ((List.finRange 4).map fun i => Cell.tri (tetraCM.tri i))).sum = 1
    rw [List.map_map,
      show (Cell.oil_value ∘ fun i => Cell.tri (tetraCM.tri i)) = fun i => tetraCM.u i
        from funext fun i => rfl,
      ← Fin.sum_univ_def, Fin.sum_univ_four]
    show (1 : ℚ) + 0 + 0 + 0 = 1
    norm_num

/-- A concrete two-triangle closed mesh for the C6 witness: the two cells are
mutual neighbors through all three edge slots, with opposite normals. -/
def wCM : ClosedMesh 2 :=
  { pid := fun _ => [0, 1, 2]
    pts := fun _ => []
    mid := fun _ => (0, 0)
    vel := ![(1, 2), (3, 4)]
    u := ![3, 5]
    A := fun _ => 1
    nrm := fun i e => if i = 0 then ![((1 : ℚ), (0 : ℚ)), (0, 1), (1, 1)] e
      else vneg (![((1 : ℚ), (0 : ℚ)), (0, 1), (1, 1)] e)
    ngh := fun i _ => if i = 0 then 1 else 0 }

def wSigma : Fin 2 × Fin 3 → Fin 2 × Fin 3 := fun p => (if p.1 = 0 then 1 else 0, p.2)

/-- Witness for C6 (amended) at the concrete two-triangle closed mesh. -/
theorem calculate_conserves_mass_witness :
    Function.Involutive wSigma ∧
    (∀ p, (wSigma p).1 = wCM.ngh p.1 p.2) ∧
    (∀ p, wCM.nrm (wSigma p).1 (wSigma p).2 = vneg (wCM.nrm p.1 p.2)) ∧
    (∀ i, wCM.A i ≠ 0) ∧
    (∃ S', calculate (wCM.state 0 1 1 1 "w" ((0, 1), (0, 1))) = some S' ∧
      (S'.cells.map fun c => c.area?.getD 0 * c.oil_value).sum =
      ((wCM.state 0 1 1 1 "w" ((0, 1), (0, 1))).cells.map
        fun c => c.area?.getD 0 * c.oil_value).sum) := by
  have h1 : Function.Involutive wSigma := by intro p; revert p; decide
  have h2 : ∀ p, (wSigma p).1 = wCM.ngh p.1 p.2 := by decide
  have h3 : ∀ p, wCM.nrm (wSigma p).1 (wSigma p).2 = vneg (wCM.nrm p.1 p.2) := by decide
  have h4 : ∀ i, wCM.A i ≠ 0 := by decide
  exact ⟨h1, h2, h3, h4,
    calculate_conserves_mass wCM wSigma 0 1 1 1 "w" ((0, 1), (0, 1)) h1 h2 h3 h4⟩

end OilSpill
